import Mathlib

/-!
Verification of the core logic of `check-flights.js` (flight-tracker-delhi-goa).

The development shallowly embeds the program's pure decision logic:

* the Amadeus provider adapter `parseAmadeusFlights` (source lines 80-144),
  including its fused filtering (excluded airlines, departure/return time
  windows, stop limits) and its ISO-8601 duration parsing;
* the categorizer `categorizeFlights` (lines 184-203);
* the price-history store `loadPriceHistory` (lines 206-216);
* the drop/alert decision logic of `main` (lines 524-607), split into the
  daily-summary branch and the routine price-drop check.

Modelling conventions:

* JavaScript numbers that the program treats as exact (prices out of
  `parseFloat`, before `Math.round`) are rationals `ℚ`; rounded prices and
  baselines are integers `ℤ`; `Math.round x` is `⌊x + 1/2⌋` (half toward +∞).
* Exceptions thrown by property access on `undefined` (missing nested JSON
  fields) are `Except.error ()`; `Array.prototype.map` propagates the first
  thrown error, which `mapME` mirrors.
* A `Date` value is carried as its raw string plus its `getHours()` result;
  `none` for the hour models an invalid date, whose `NaN` hour makes every
  numeric comparison false, exactly as in JavaScript.
* Locale-specific display formatting (`toLocaleString`) carries no decision
  logic; `formatDateTime` is modelled as returning the stored raw string.
-/

namespace FlightTracker

/-- `Math.round` on an exact (rational) number: round half toward plus
infinity, as JavaScript does. -/
def jsRound (q : ℚ) : ℤ := ⌊q + 1/2⌋

/-- A parsed `Date`: the raw ISO string it was built from, and the result of
`getHours()`.  `hour = none` models an invalid date (`getHours()` is `NaN`). -/
structure JsDate where
  display : String
  hour : Option ℤ
deriving DecidableEq, Repr

/-- `x < n` on a possibly-NaN hour: any comparison with NaN is false. -/
def jsLt (x : Option ℤ) (n : ℤ) : Bool :=
  match x with
  | some v => v < n
  | none => false

/-- `x >= n` on a possibly-NaN hour: any comparison with NaN is false. -/
def jsGe (x : Option ℤ) (n : ℤ) : Bool :=
  match x with
  | some v => n ≤ v
  | none => false

/-- One raw Amadeus segment: the fields the script reads
(`carrierCode`, `departure.at`, `arrival.at`). -/
structure RawSegment where
  carrierCode : String
  departureAt : JsDate
  arrivalAt : JsDate
deriving DecidableEq, Repr

/-- One raw itinerary: `duration` (an ISO-8601 duration string, possibly
missing) and its `segments` array. -/
structure RawItinerary where
  duration : Option String
  segments : List RawSegment
deriving DecidableEq, Repr

/-- The raw `price` object; `total` is the numeric value
`parseFloat(offer.price.total)`, modelled exactly as a rational. -/
structure RawPrice where
  total : ℚ
deriving DecidableEq, Repr

/-- One raw offer record out of the provider's `data` array.  `price = none`
models a record whose `price` object is absent (reading `.total` throws). -/
structure RawOffer where
  id : String
  itineraries : List RawItinerary
  price : Option RawPrice
deriving DecidableEq, Repr

/-- The raw Amadeus payload: `data = none` models an absent (or falsy)
top-level `data` container. -/
structure RawData where
  data : Option (List RawOffer)
deriving DecidableEq, Repr

/-- One normalized leg of the produced flight object (display strings plus
the stop count, as built at source lines 127-138). -/
structure Leg where
  departure : String
  arrival : String
  duration : String
  stops : ℕ
deriving DecidableEq, Repr

/-- The normalized flight object built at source lines 121-140.  The JS
field `return` is a reserved word in Lean and is named `ret` here. -/
structure Flight where
  id : String
  airline : String
  airlineCode : String
  price : ℤ
  refundablePrice : ℤ
  outbound : Leg
  ret : Leg
  totalDuration : ℕ
deriving DecidableEq, Repr

/-- The per-run configuration `FLIGHT_CONFIG` (source lines 13-26). -/
structure FlightConfig where
  origin : String
  destination : String
  outboundDate : String
  returnDate : String
  departureTimeStart : String
  returnTimeStart : String
  returnTimeEnd : String
  adults : ℕ
  maxStops : ℕ
  excludedAirlines : List String
  priceDropThreshold : ℤ
  refundableMarkup : ℚ
deriving DecidableEq, Repr

/-- The concrete configuration of the script. -/
def FLIGHT_CONFIG : FlightConfig where
  origin := "DEL"
  destination := "GOI"
  outboundDate := "2024-11-14"
  returnDate := "2024-11-18"
  departureTimeStart := "18:00"
  returnTimeStart := "12:00"
  returnTimeEnd := "17:00"
  adults := 1
  maxStops := 1
  excludedAirlines := ["I5", "AK"]
  priceDropThreshold := 300
  refundableMarkup := 3/20

/-- `getAirlineName` (source lines 146-157): known-code lookup with
fall-through to the raw code. -/
def getAirlineName (code : String) : String :=
  match code with
  | "6E" => "IndiGo"
  | "UK" => "Vistara"
  | "SG" => "SpiceJet"
  | "AI" => "Air India"
  | "I5" => "Air India Express"
  | "AK" => "AirAsia"
  | "G8" => "Go First"
  | _ => code

/-- `formatDateTime` (source lines 159-167) renders the instant with a
locale formatter; the rendering carries no decision logic and is modelled
as the stored raw string. -/
def formatDateTime (d : JsDate) : String := d.display

/-- Split a character list at the first occurrence of the literal `PT`,
returning the suffix after it — the position where the regex
`/PT(\d+H)?(\d+M)?/` starts its optional groups; `none` when the regex
does not match at all. -/
def afterPT : List Char → Option (List Char)
  | [] => none
  | 'P' :: 'T' :: rest => some rest
  | _ :: rest => afterPT rest

/-- Longest prefix of decimal digits, with the remainder. -/
def takeDigits : List Char → List Char × List Char
  | [] => ([], [])
  | c :: cs =>
    if c.isDigit then
      let (ds, rest) := takeDigits cs
      (c :: ds, rest)
    else ([], c :: cs)

/-- Numeric value of a digit string (the leading-digits behaviour of
`parseInt` on a group such as `"12H"`). -/
def digitsVal (ds : List Char) : ℕ :=
  ds.foldl (fun n c => n * 10 + (c.toNat - 48)) 0

/-- Match one greedy optional group `(\d+X)?` at the current position:
digits immediately followed by the marker character consume input and
yield their value; otherwise the group is empty and contributes 0. -/
def grabNum (marker : Char) (l : List Char) : ℕ × List Char :=
  match takeDigits l with
  | ([], _) => (0, l)
  | (ds, rest) =>
    match rest with
    | r :: rs => if r == marker then (digitsVal ds, rs) else (0, l)
    | [] => (0, l)

/-- The common core of `formatDuration`/`parseDuration` (source lines
169-181): match `/PT(\d+H)?(\d+M)?/` and return (hours, minutes).
`none` input models a missing `duration` field (`undefined.match` throws);
a string without `PT` makes `match` return `null`, so that `match[1]`
throws — both are `Except.error`. -/
def parseHM (s : Option String) : Except Unit (ℕ × ℕ) :=
  match s with
  | none => Except.error ()
  | some str =>
    match afterPT str.data with
    | none => Except.error ()
    | some rest =>
      let (h, rest1) := grabNum 'H' rest
      let (m, _) := grabNum 'M' rest1
      Except.ok (h, m)

/-- `formatDuration`'s display string for parsed hours/minutes. -/
def fmtHM (hm : ℕ × ℕ) : String :=
  toString hm.1 ++ "h " ++ toString hm.2 ++ "m"

/-- The leg-level raw data the script extracts from `itineraries[i]`:
first segment, last segment, `duration`, and `segments.length - 1` stops.
Errors model the `TypeError`s of reading `.segments` of an absent
itinerary or a property of `segments[0]` when the array is empty. -/
structure LegRaw where
  first : RawSegment
  last : RawSegment
  duration : Option String
  stops : ℕ
deriving DecidableEq, Repr

/-- Extract the leg data of `itineraries[i]` (source lines 84-85, 98-106). -/
def getLegRaw (itins : List RawItinerary) (i : ℕ) : Except Unit LegRaw :=
  match itins.get? i with
  | none => Except.error ()
  | some itin =>
    match itin.segments.head?, itin.segments.getLast? with
    | some s0, some sl =>
      Except.ok ⟨s0, sl, itin.duration, itin.segments.length - 1⟩
    | _, _ => Except.error ()

/-- Build the normalized flight object (source lines 121-140) once every
check has passed. -/
def mkFlight (cfg : FlightConfig) (offer : RawOffer) (p : RawPrice)
    (ob rt : LegRaw) (obHM rtHM : ℕ × ℕ) : Flight where
  id := offer.id
  airline := getAirlineName ob.first.carrierCode
  airlineCode := ob.first.carrierCode
  price := jsRound p.total
  refundablePrice := jsRound (p.total * (1 + cfg.refundableMarkup))
  outbound :=
    { departure := formatDateTime ob.first.departureAt
      arrival := formatDateTime ob.last.arrivalAt
      duration := fmtHM obHM
      stops := ob.stops }
  ret :=
    { departure := formatDateTime rt.first.departureAt
      arrival := formatDateTime rt.last.arrivalAt
      duration := fmtHM rtHM
      stops := rt.stops }
  totalDuration := (obHM.1 * 60 + obHM.2) + (rtHM.1 * 60 + rtHM.2)

/-- The body of the `data.data.map` callback (source lines 83-140).
`Except.ok none` is the callback returning `null` (record filtered out);
`Except.error ()` is a thrown `TypeError`.  The evaluation order follows
the source: `price.total` is read before the first segment's carrier code,
the excluded-airline early return precedes the return-leg access, and the
duration strings are only parsed in the final object construction, after
all time/stop checks.  The hour bounds 18, 12 and 17 are literals in the
source (lines 110 and 114), independent of the config strings. -/
def parseOffer (cfg : FlightConfig) (offer : RawOffer) :
    Except Unit (Option Flight) :=
  match offer.price with
  | none => Except.error ()
  | some p =>
    match getLegRaw offer.itineraries 0 with
    | Except.error e => Except.error e
    | Except.ok ob =>
      if cfg.excludedAirlines.contains ob.first.carrierCode then Except.ok none
      else
        match getLegRaw offer.itineraries 1 with
        | Except.error e => Except.error e
        | Except.ok rt =>
          if jsLt ob.first.departureAt.hour 18 then Except.ok none
          else if jsLt rt.first.departureAt.hour 12 ||
              jsGe rt.first.departureAt.hour 17 then Except.ok none
          else if decide (ob.stops > cfg.maxStops) ||
              decide (rt.stops > cfg.maxStops) then Except.ok none
          else
            match parseHM ob.duration with
            | Except.error e => Except.error e
            | Except.ok obHM =>
              match parseHM rt.duration with
              | Except.error e => Except.error e
              | Except.ok rtHM =>
                Except.ok (some (mkFlight cfg offer p ob rt obHM rtHM))

/-- `Array.prototype.map` with exceptions: the first thrown error aborts
the whole traversal, exactly as in JavaScript. -/
def mapME (g : RawOffer → Except Unit (Option Flight)) :
    List RawOffer → Except Unit (List (Option Flight))
  | [] => Except.ok []
  | x :: xs =>
    match g x with
    | Except.error e => Except.error e
    | Except.ok y =>
      match mapME g xs with
      | Except.error e => Except.error e
      | Except.ok ys => Except.ok (y :: ys)

/-- `parseAmadeusFlights` (source lines 80-144): empty result when the
top-level `data` container is absent, otherwise
`data.data.map(...).filter(f => f !== null)`. -/
def parseAmadeusFlights (cfg : FlightConfig) (d : RawData) :
    Except Unit (List Flight) :=
  match d.data with
  | none => Except.ok []
  | some offers =>
    match mapME (parseOffer cfg) offers with
    | Except.error e => Except.error e
    | Except.ok parsed => Except.ok (parsed.filterMap id)

/-- The result record of `categorizeFlights` (source line 202). -/
structure Categories where
  fastest : Flight
  cheapest : Flight
  bestOneStop : Option Flight
deriving DecidableEq, Repr

/-- `Array.prototype.reduce` without an initial value on a non-empty array:
fold the combining function over the tail starting from the head. -/
def reduce1 (g : Flight → Flight → Flight) (x : Flight) (xs : List Flight) :
    Flight :=
  xs.foldl g x

/-- The reduce callback `(min, f) => key f < key min ? f : min`. -/
def minBy (key : Flight → ℤ) (acc f : Flight) : Flight :=
  if key f < key acc then f else acc

/-- Key used by the fastest-flight reduction: `totalDuration`. -/
def keyDur (f : Flight) : ℤ := (f.totalDuration : ℤ)

/-- Key used by the cheapest / best-one-stop reductions: `price`. -/
def keyPrice (f : Flight) : ℤ := f.price

/-- A guarded `reduce`: `none` on the empty array (where the JS code never
calls `reduce`, guarding with `length > 0` ternaries), otherwise the fold
over the tail starting from the head. -/
def reduceMin (key : Flight → ℤ) : List Flight → Option Flight
  | [] => none
  | x :: xs => some (reduce1 (minBy key) x xs)

/-- `categorizeFlights` (source lines 184-203): `null` on an empty list;
otherwise the fastest flight (`directFlights.length > 0` preferring the
direct-outbound subset, else all flights), the cheapest flight, and the
cheapest one-stop flight (`null` when no offer has exactly one stop on
either leg).  Each reduction keeps the earlier element on ties because
the callback uses a strict `<`. -/
def categorizeFlights : List Flight → Option Categories
  | [] => none
  | f :: fs =>
    some
      { fastest :=
          (reduceMin keyDur
            ((f :: fs).filter (fun x => x.outbound.stops == 0))).getD
            (reduce1 (minBy keyDur) f fs)
        cheapest := reduce1 (minBy keyPrice) f fs
        bestOneStop :=
          reduceMin keyPrice
            ((f :: fs).filter (fun x => x.outbound.stops == 1 ||
              x.ret.stops == 1)) }

/-- One persisted day of price history (source lines 530-535 and the
persisted JSON shape): baseline price per category, `bestOneStop`
nullable. -/
structure HistoryEntry where
  date : String
  fastest : ℤ
  cheapest : ℤ
  bestOneStop : Option ℤ
deriving DecidableEq, Repr

/-- The persisted price history (source lines 215, 606):
`{ daily: [...], lastCheck: ISO string | null }`. -/
structure PriceHistory where
  daily : List HistoryEntry
  lastCheck : Option String
deriving DecidableEq, Repr

/-- The state of the storage file as `loadPriceHistory` observes it.
`corrupt` covers a file that exists but whose read or `JSON.parse`
throws (unreadable bytes or invalid JSON). -/
inductive StorageState where
  | missing
  | corrupt
  | stored (h : PriceHistory)
deriving DecidableEq, Repr

/-- The body of the `try` block in `loadPriceHistory` (source lines
207-211): `ok none` when `existsSync` is false and the block falls
through, `error` when read/parse throws, `ok (some h)` on success. -/
def tryLoad : StorageState → Except Unit (Option PriceHistory)
  | StorageState.missing => Except.ok none
  | StorageState.corrupt => Except.error ()
  | StorageState.stored h => Except.ok (some h)

/-- `loadPriceHistory` (source lines 206-216): the `catch` swallows any
storage error, and both the missing-file and the caught-error paths fall
through to the fresh default `{ daily: [], lastCheck: null }`. -/
def loadPriceHistory (s : StorageState) : PriceHistory :=
  match tryLoad s with
  | Except.ok (some h) => h
  | Except.ok none => { daily := [], lastCheck := none }
  | Except.error _ => { daily := [], lastCheck := none }

/-- One element of the `alerts` array built in routine-check mode
(source lines 556-561). -/
structure DropAlert where
  category : String
  flight : Flight
  oldPrice : ℤ
  newPrice : ℤ
deriving DecidableEq, Repr

/-- Category label of the fastest-flight alert (source line 557). -/
def catFastest : String := "Fastest Flight"

/-- Category label of the cheapest-flight alert (source line 567). -/
def catCheapest : String := "Cheapest Flight"

/-- Category label of the best-one-stop alert (source line 578). -/
def catOneStop : String := "Best 1-Stop"

/-- The routine-check branch of `main` (source lines 553-584): compare
each categorized price to today's baseline, pushing an alert and
lowering the baseline when `current <= baseline - threshold`.  The
best-one-stop check requires `categories.bestOneStop` and
`todayHistory.bestOneStop` to be truthy; for the stored number this
means non-null and non-zero (`0` is falsy in JavaScript), which the
`base ≠ 0` conjunct models. -/
def routineCheck (thr : ℤ) (c : Categories) (e : HistoryEntry) :
    List DropAlert × HistoryEntry :=
  let step1 :=
    if c.fastest.price ≤ e.fastest - thr then
      ([({ category := catFastest, flight := c.fastest,
           oldPrice := e.fastest, newPrice := c.fastest.price } : DropAlert)],
       { e with fastest := c.fastest.price })
    else ([], e)
  let step2 :=
    if c.cheapest.price ≤ step1.2.cheapest - thr then
      (step1.1 ++ [({ category := catCheapest, flight := c.cheapest,
                      oldPrice := step1.2.cheapest,
                      newPrice := c.cheapest.price } : DropAlert)],
       { step1.2 with cheapest := c.cheapest.price })
    else step1
  match c.bestOneStop, step2.2.bestOneStop with
  | some b, some base =>
    if base ≠ 0 ∧ b.price ≤ base - thr then
      (step2.1 ++ [({ category := catOneStop, flight := b,
                      oldPrice := base, newPrice := b.price } : DropAlert)],
       { step2.2 with bestOneStop := some b.price })
    else step2
  | _, _ => step2

/-- The daily-summary baseline reset (source lines 546-548). -/
def summaryReset (c : Categories) (e : HistoryEntry) : HistoryEntry :=
  { e with
    fastest := c.fastest.price
    cheapest := c.cheapest.price
    bestOneStop := c.bestOneStop.map (fun b => b.price) }

/-- A notification decision of one run: the single daily summary (source
line 543) or one price-drop alert email (source lines 588-599). -/
inductive RunEvent where
  | summary (c : Categories)
  | drop (a : DropAlert)
deriving DecidableEq, Repr

/-- Replace the first element satisfying `p` — the pure counterpart of
mutating the object that `daily.find` aliased. -/
def replaceFirst (p : HistoryEntry → Bool) (e : HistoryEntry) :
    List HistoryEntry → List HistoryEntry
  | [] => []
  | d :: ds => if p d then e :: ds else d :: replaceFirst p e ds

/-- Store the run's final version of today's entry back into the history:
the entry object pushed or found at source lines 527-537 is mutated in
place, so the final `daily` list is the original with today's first entry
replaced, or with the fresh entry appended. -/
def setToday (h : PriceHistory) (today : String) (e : HistoryEntry)
    (existed : Bool) (now : String) : PriceHistory :=
  { daily :=
      if existed then replaceFirst (fun d => d.date == today) e h.daily
      else h.daily ++ [e]
    lastCheck := some now }

/-- The decision logic of `main` after a successful categorization
(source lines 524-607): look up or create today's entry, then either the
daily-summary branch (one summary notification and an unconditional
baseline reset) or the routine-check branch (zero or more drop alerts),
finally stamping `lastCheck`.  Returns the ordered notification
decisions and the history as saved. -/
def runEngine (cfg : FlightConfig) (isSummary : Bool) (c : Categories)
    (h : PriceHistory) (today now : String) : List RunEvent × PriceHistory :=
  let found := h.daily.find? (fun d => d.date == today)
  let e :=
    match found with
    | some e => e
    | none =>
      { date := today
        fastest := c.fastest.price
        cheapest := c.cheapest.price
        bestOneStop := c.bestOneStop.map (fun b => b.price) }
  if isSummary then
    ([RunEvent.summary c], setToday h today (summaryReset c e) found.isSome now)
  else
    let r := routineCheck cfg.priceDropThreshold c e
    (r.1.map RunEvent.drop, setToday h today r.2 found.isSome now)

/-- `m` is an element of `l` of minimal key, and the first one to attain
the minimum: every element strictly before it has a strictly larger key. -/
def IsFirstMinBy (key : Flight → ℤ) (l : List Flight) (m : Flight) : Prop :=
  ∃ pre post, l = pre ++ m :: post ∧ (∀ y ∈ pre, key m < key y) ∧
    ∀ y ∈ l, key m ≤ key y

/-- The initial-value-free `reduce` with callback `f.key < min.key ? f : min`
returns the first element of minimal key: the strict `<` keeps the earlier
element on ties. -/
theorem reduce1_minBy_firstMin (key : Flight → ℤ) (x : Flight)
    (xs : List Flight) :
    IsFirstMinBy key (x :: xs) (reduce1 (minBy key) x xs) := by
  induction xs generalizing x with
  | nil =>
    refine ⟨[], [], rfl, by simp, ?_⟩
    intro y hy
    have hx : y = x := by simpa using hy
    simp [hx, reduce1]
  | cons y ys ih =>
    have hfold : reduce1 (minBy key) x (y :: ys) =
        reduce1 (minBy key) (minBy key x y) ys := rfl
    rw [hfold]
    by_cases hxy : key y < key x
    · have hm : minBy key x y = y := if_pos hxy
      rw [hm]
      obtain ⟨pre, post, hdec, hpre, hall⟩ := ih y
      refine ⟨x :: pre, post, ?_, ?_, ?_⟩
      · rw [List.cons_append, ← hdec]
      · intro z hz
        rcases List.mem_cons.mp hz with rfl | hz'
        · exact lt_of_le_of_lt (hall y (List.mem_cons_self y ys)) hxy
        · exact hpre z hz'
      · intro z hz
        rcases List.mem_cons.mp hz with rfl | hz'
        · exact le_of_lt (lt_of_le_of_lt (hall y (List.mem_cons_self y ys)) hxy)
        · exact hall z hz'
    · have hm : minBy key x y = x := if_neg hxy
      rw [hm]
      have hxy' : key x ≤ key y := le_of_not_lt hxy
      obtain ⟨pre, post, hdec, hpre, hall⟩ := ih x
      set m := reduce1 (minBy key) x ys with hmdef
      cases pre with
      | nil =>
        simp only [List.nil_append] at hdec
        injection hdec with h1 h2
        refine ⟨[], y :: ys, ?_, by simp, ?_⟩
        · rw [List.nil_append, ← h1]
        · intro z hz
          rcases List.mem_cons.mp hz with rfl | hz'
          · exact hall z (List.mem_cons_self z ys)
          · rcases List.mem_cons.mp hz' with rfl | hz''
            · calc key m ≤ key x := hall x (List.mem_cons_self x ys)
                _ ≤ key z := hxy'
            · exact hall z (List.mem_cons_of_mem x hz'')
      | cons p ps =>
        rw [List.cons_append] at hdec
        injection hdec with h1 h2
        have hmx : key m < key x := by
          have hp := hpre p (List.mem_cons_self p ps)
          rw [← h1] at hp
          exact hp
        refine ⟨x :: y :: ps, post, ?_, ?_, ?_⟩
        · rw [h2, List.cons_append, List.cons_append]
        · intro z hz
          rcases List.mem_cons.mp hz with rfl | hz'
          · exact hmx
          · rcases List.mem_cons.mp hz' with rfl | hz''
            · exact lt_of_lt_of_le hmx hxy'
            · exact hpre z (List.mem_cons_of_mem p hz'')
        · intro z hz
          rcases List.mem_cons.mp hz with rfl | hz'
          · exact hall z (List.mem_cons_self z ys)
          · rcases List.mem_cons.mp hz' with rfl | hz''
            · exact le_of_lt (lt_of_lt_of_le hmx hxy')
            · exact hall z (List.mem_cons_of_mem x hz'')

/-- C6: in every non-empty offer list, `cheapest` is the global minimum by
price over all offers, ties broken by input order (first encountered wins);
consequently `cheapest.price ≤ o.price` for every offer `o`. -/
theorem cheapest_is_first_global_min (flights : List Flight)
    (cats : Categories) (h : categorizeFlights flights = some cats) :
    IsFirstMinBy keyPrice flights cats.cheapest ∧
    ∀ o ∈ flights, cats.cheapest.price ≤ o.price := by
  cases flights with
  | nil => simp [categorizeFlights] at h
  | cons f fs =>
    simp only [categorizeFlights] at h
    obtain rfl : _ = cats := Option.some.inj h
    constructor
    · exact reduce1_minBy_firstMin keyPrice f fs
    · intro o ho
      obtain ⟨pre, post, hdec, hpre, hall⟩ := reduce1_minBy_firstMin keyPrice f fs
      exact hall o ho

/-- `reduceMin` returning an element means that element is the first
minimum of the list. -/
theorem reduceMin_some (key : Flight → ℤ) (l : List Flight) (m : Flight)
    (h : reduceMin key l = some m) : IsFirstMinBy key l m := by
  cases l with
  | nil => cases h
  | cons x xs =>
    obtain rfl : _ = m := Option.some.inj h
    exact reduce1_minBy_firstMin key x xs

/-- `reduceMin` returns `none` exactly on the empty list. -/
theorem reduceMin_none (key : Flight → ℤ) (l : List Flight) :
    reduceMin key l = none ↔ l = [] := by
  cases l <;> simp [reduceMin]

/-- C4: the fastest category is the first minimum by `totalDuration` over
the direct-outbound subset when it is non-empty, else over all offers. -/
theorem fastest_prefers_direct (flights : List Flight) (cats : Categories)
    (h : categorizeFlights flights = some cats) :
    (flights.filter (fun x => x.outbound.stops == 0) ≠ [] →
      IsFirstMinBy keyDur (flights.filter (fun x => x.outbound.stops == 0))
        cats.fastest) ∧
    (flights.filter (fun x => x.outbound.stops == 0) = [] →
      IsFirstMinBy keyDur flights cats.fastest) := by
  cases flights with
  | nil => simp [categorizeFlights] at h
  | cons f fs =>
    simp only [categorizeFlights] at h
    have hinj := Option.some.inj h
    have hfast : cats.fastest =
        (reduceMin keyDur
          ((f :: fs).filter (fun x => x.outbound.stops == 0))).getD
          (reduce1 (minBy keyDur) f fs) := by
      rw [← hinj]
    rcases hr : reduceMin keyDur
        ((f :: fs).filter (fun x => x.outbound.stops == 0)) with _ | m
    · have hempty := (reduceMin_none _ _).mp hr
      refine ⟨fun hne => absurd hempty hne, fun _ => ?_⟩
      rw [hfast, hr, Option.getD_none]
      exact reduce1_minBy_firstMin keyDur f fs
    · refine ⟨fun _ => ?_, fun heq => ?_⟩
      · rw [hfast, hr, Option.getD_some]
        exact reduceMin_some _ _ _ hr
      · rw [heq] at hr
        cases hr

/-- C5: `bestOneStop` is `null` exactly when no offer has one stop on
either leg; when present it is the first minimum by price over the
one-stop subset, hence at most the price of every one-stop offer. -/
theorem bestOneStop_null_iff_and_min (flights : List Flight)
    (cats : Categories) (h : categorizeFlights flights = some cats) :
    (cats.bestOneStop = none ↔
      ∀ o ∈ flights, o.outbound.stops ≠ 1 ∧ o.ret.stops ≠ 1) ∧
    ∀ b, cats.bestOneStop = some b →
      IsFirstMinBy keyPrice
        (flights.filter (fun x => x.outbound.stops == 1 || x.ret.stops == 1))
        b ∧
      ∀ o ∈ flights, (o.outbound.stops = 1 ∨ o.ret.stops = 1) →
        b.price ≤ o.price := by
  cases flights with
  | nil => simp [categorizeFlights] at h
  | cons f fs =>
    simp only [categorizeFlights] at h
    have hinj := Option.some.inj h
    have hbos : cats.bestOneStop =
        reduceMin keyPrice
          ((f :: fs).filter
            (fun x => x.outbound.stops == 1 || x.ret.stops == 1)) := by
      rw [← hinj]
    constructor
    · rw [hbos, reduceMin_none, List.filter_eq_nil_iff]
      constructor
      · intro hp o ho
        have := hp o ho
        simpa using this
      · intro hp o ho
        have := hp o ho
        simpa using this
    · intro b hb
      rw [hbos] at hb
      have hmin := reduceMin_some _ _ _ hb
      refine ⟨hmin, ?_⟩
      intro x hx hx1
      obtain ⟨pre, post, hdec, hpre, hall⟩ := hmin
      apply hall
      rw [List.mem_filter]
      refine ⟨hx, ?_⟩
      simp only [Bool.or_eq_true, beq_iff_eq]
      exact hx1

/-- Normalized flights used as concrete witness data: explicit integer
prices, stop counts and durations. -/
def mkF (idv code : String) (price : ℤ) (obStops retStops : ℕ)
    (dur : ℕ) : Flight where
  id := idv
  airline := code
  airlineCode := code
  price := price
  refundablePrice := price
  outbound := { departure := "od", arrival := "oa", duration := "x", stops := obStops }
  ret := { departure := "rd", arrival := "ra", duration := "x", stops := retStops }
  totalDuration := dur

/-- A concrete offer list: one one-stop outbound, two direct outbounds
(one of them with a one-stop return). -/
def sampleFlights : List Flight :=
  [mkF "a" "6E" 5000 1 0 320, mkF "b" "UK" 4500 0 0 300,
   mkF "c" "AI" 4800 0 1 280]

/-- The categorization of `sampleFlights`: fastest is the 280-minute
direct flight, cheapest the 4500 one, best one-stop the 4800 one. -/
def sampleCats : Categories where
  fastest := mkF "c" "AI" 4800 0 1 280
  cheapest := mkF "b" "UK" 4500 0 0 300
  bestOneStop := some (mkF "c" "AI" 4800 0 1 280)

/-- Witness for C4 at `sampleFlights`. -/
theorem fastest_prefers_direct_witness :
    (sampleFlights.filter (fun x => x.outbound.stops == 0) ≠ [] →
      IsFirstMinBy keyDur
        (sampleFlights.filter (fun x => x.outbound.stops == 0))
        sampleCats.fastest) ∧
    (sampleFlights.filter (fun x => x.outbound.stops == 0) = [] →
      IsFirstMinBy keyDur sampleFlights sampleCats.fastest) :=
  fastest_prefers_direct sampleFlights sampleCats (by rfl)

/-- Witness for C5 at `sampleFlights`. -/
theorem bestOneStop_null_iff_and_min_witness :
    (sampleCats.bestOneStop = none ↔
      ∀ o ∈ sampleFlights, o.outbound.stops ≠ 1 ∧ o.ret.stops ≠ 1) ∧
    ∀ b, sampleCats.bestOneStop = some b →
      IsFirstMinBy keyPrice
        (sampleFlights.filter
          (fun x => x.outbound.stops == 1 || x.ret.stops == 1)) b ∧
      ∀ o ∈ sampleFlights, (o.outbound.stops = 1 ∨ o.ret.stops = 1) →
        b.price ≤ o.price :=
  bestOneStop_null_iff_and_min sampleFlights sampleCats (by rfl)

/-- Witness for C6 at `sampleFlights`. -/
theorem cheapest_is_first_global_min_witness :
    IsFirstMinBy keyPrice sampleFlights sampleCats.cheapest ∧
    ∀ o ∈ sampleFlights, sampleCats.cheapest.price ≤ o.price :=
  cheapest_is_first_global_min sampleFlights sampleCats (by rfl)

/-- C1: in routine-check mode, for each category present in both the
categorization and today's baseline, an alert is emitted exactly when
`currentPrice ≤ baseline - dropThreshold`, carrying the prior baseline as
`oldPrice` and the current price as `newPrice`; a qualifying drop lowers
the baseline to the current price (a strict decrease), and otherwise the
baseline is left unchanged even when the current price is higher.  The
positivity hypotheses rule out the degenerate zero baseline that
JavaScript's falsiness of `0` would skip. -/
theorem routine_drop_iff (thr : ℤ) (c : Categories) (e : HistoryEntry)
    (hthr : 0 < thr)
    (hbpos : ∀ b, c.bestOneStop = some b → 0 ≤ b.price) :
    ((routineCheck thr c e).1.filter (fun a => a.category == catFastest) =
      if c.fastest.price ≤ e.fastest - thr then
        [{ category := catFastest, flight := c.fastest, oldPrice := e.fastest,
           newPrice := c.fastest.price }] else []) ∧
    ((routineCheck thr c e).2.fastest =
      if c.fastest.price ≤ e.fastest - thr then c.fastest.price
      else e.fastest) ∧
    (c.fastest.price ≤ e.fastest - thr → c.fastest.price < e.fastest) ∧
    ((routineCheck thr c e).1.filter (fun a => a.category == catCheapest) =
      if c.cheapest.price ≤ e.cheapest - thr then
        [{ category := catCheapest, flight := c.cheapest,
           oldPrice := e.cheapest, newPrice := c.cheapest.price }] else []) ∧
    ((routineCheck thr c e).2.cheapest =
      if c.cheapest.price ≤ e.cheapest - thr then c.cheapest.price
      else e.cheapest) ∧
    (c.cheapest.price ≤ e.cheapest - thr → c.cheapest.price < e.cheapest) ∧
    ∀ b base, c.bestOneStop = some b → e.bestOneStop = some base →
      ((routineCheck thr c e).1.filter (fun a => a.category == catOneStop) =
        if b.price ≤ base - thr then
          [{ category := catOneStop, flight := b, oldPrice := base,
             newPrice := b.price }] else []) ∧
      ((routineCheck thr c e).2.bestOneStop =
        if b.price ≤ base - thr then some b.price else some base) ∧
      (b.price ≤ base - thr → b.price < base) := by
  obtain ⟨cf, cc, cb⟩ := c
  obtain ⟨ed, ef, ec, eb⟩ := e
  rcases cb with _ | b0 <;> rcases eb with _ | base0 <;>
    by_cases h1 : cf.price ≤ ef - thr <;> by_cases h2 : cc.price ≤ ec - thr
  all_goals
    try have hb0 : (0:ℤ) ≤ b0.price := hbpos b0 rfl
  all_goals
    try by_cases h3 : b0.price ≤ base0 - thr
  all_goals
    try have hbase0 : base0 ≠ 0 := by omega
  all_goals
    simp only [routineCheck, h1, h2, if_true, if_false, ite_true, ite_false,
      if_pos, if_neg]
  all_goals
    simp_all [catFastest, catCheapest, catOneStop, List.filter]
  all_goals
    try have hF : ¬(¬base0 = 0 ∧ b0.price ≤ base0 - thr) := by omega
  all_goals
    try rw [if_neg hF]
  all_goals
    try simp_all [List.filter]
  all_goals
    try rw [if_neg (show ¬ b0.price ≤ base0 - thr from by omega)]
  all_goals
    try simp
  all_goals
    try omega

/-- The spec's worked drop example as categorized input: the fastest
category currently costs 9700, the cheapest 9750. -/
def exampleCats : Categories where
  fastest := mkF "f" "6E" 9700 0 0 300
  cheapest := mkF "g" "UK" 9750 0 0 310
  bestOneStop := none

/-- The spec's worked drop example as today's baseline entry: both
baselines at 10000. -/
def exampleEntry : HistoryEntry where
  date := "2024-10-01"
  fastest := 10000
  cheapest := 10000
  bestOneStop := none

/-- Witness for C1 at the spec's worked example: threshold 300, baseline
10000, current prices 9700 (drop) and 9750 (no drop). -/
theorem routine_drop_iff_witness :
    ((routineCheck 300 exampleCats exampleEntry).1.filter
        (fun a => a.category == catFastest) =
      if exampleCats.fastest.price ≤ exampleEntry.fastest - 300 then
        [{ category := catFastest, flight := exampleCats.fastest,
           oldPrice := exampleEntry.fastest,
           newPrice := exampleCats.fastest.price }] else []) ∧
    ((routineCheck 300 exampleCats exampleEntry).2.fastest =
      if exampleCats.fastest.price ≤ exampleEntry.fastest - 300 then
        exampleCats.fastest.price
      else exampleEntry.fastest) ∧
    (exampleCats.fastest.price ≤ exampleEntry.fastest - 300 →
      exampleCats.fastest.price < exampleEntry.fastest) ∧
    ((routineCheck 300 exampleCats exampleEntry).1.filter
        (fun a => a.category == catCheapest) =
      if exampleCats.cheapest.price ≤ exampleEntry.cheapest - 300 then
        [{ category := catCheapest, flight := exampleCats.cheapest,
           oldPrice := exampleEntry.cheapest,
           newPrice := exampleCats.cheapest.price }] else []) ∧
    ((routineCheck 300 exampleCats exampleEntry).2.cheapest =
      if exampleCats.cheapest.price ≤ exampleEntry.cheapest - 300 then
        exampleCats.cheapest.price
      else exampleEntry.cheapest) ∧
    (exampleCats.cheapest.price ≤ exampleEntry.cheapest - 300 →
      exampleCats.cheapest.price < exampleEntry.cheapest) ∧
    ∀ b base, exampleCats.bestOneStop = some b →
      exampleEntry.bestOneStop = some base →
      ((routineCheck 300 exampleCats exampleEntry).1.filter
          (fun a => a.category == catOneStop) =
        if b.price ≤ base - 300 then
          [{ category := catOneStop, flight := b, oldPrice := base,
             newPrice := b.price }] else []) ∧
      ((routineCheck 300 exampleCats exampleEntry).2.bestOneStop =
        if b.price ≤ base - 300 then some b.price else some base) ∧
      (b.price ≤ base - 300 → b.price < base) :=
  routine_drop_iff 300 exampleCats exampleEntry (by decide)
    (fun b h => nomatch h)

/-- Replacing the first hit of `find?` and searching again returns the
replacement, provided it still satisfies the predicate. -/
theorem find?_replaceFirst (p : HistoryEntry → Bool)
    (l : List HistoryEntry) (e e' : HistoryEntry)
    (hf : l.find? p = some e) (hp : p e' = true) :
    (replaceFirst p e' l).find? p = some e' := by
  induction l with
  | nil => simp [List.find?] at hf
  | cons d ds ih =>
    by_cases hd : p d = true
    · simp [replaceFirst, hd, List.find?, hp]
    · have hd' : p d = false := by
        cases hcase : p d
        · rfl
        · exact absurd hcase hd
      rw [List.find?_cons_of_neg _ (by simp [hd'])] at hf
      simp only [replaceFirst, hd', Bool.false_eq_true, if_false]
      rw [List.find?_cons_of_neg _ (by simp [hd'])]
      exact ih hf

/-- Appending an element satisfying the predicate to a list on which
`find?` fails makes `find?` return exactly that element. -/
theorem find?_append_last (p : HistoryEntry → Bool)
    (l : List HistoryEntry) (e' : HistoryEntry)
    (hf : l.find? p = none) (hp : p e' = true) :
    (l ++ [e']).find? p = some e' := by
  induction l with
  | nil => simp [List.find?, hp]
  | cons d ds ih =>
    have hd : p d = false := by
      cases hcase : p d
      · rfl
      · rw [List.find?_cons_of_pos _ hcase] at hf
        cases hf
    rw [List.find?_cons_of_neg _ (by simp [hd])] at hf
    rw [List.cons_append, List.find?_cons_of_neg _ (by simp [hd])]
    exact ih hf

/-- C3: in daily-summary mode, the run produces exactly one summary
notification, and today's entry afterwards holds the current run's
categorized prices for all three categories, regardless of the prior
baseline values. -/
theorem dailySummary_one_notification_and_reset (cfg : FlightConfig)
    (c : Categories) (h : PriceHistory) (today now : String) :
    (runEngine cfg true c h today now).1 = [RunEvent.summary c] ∧
    (runEngine cfg true c h today now).2.daily.find?
        (fun d => d.date == today) =
      some { date := today, fastest := c.fastest.price,
             cheapest := c.cheapest.price,
             bestOneStop := c.bestOneStop.map (fun b => b.price) } := by
  refine ⟨rfl, ?_⟩
  cases hfind : h.daily.find? (fun d => d.date == today) with
  | none =>
    simp only [runEngine, hfind, Option.isSome_none, setToday, if_true,
      ite_true, Bool.false_eq_true, if_false]
    have := find?_append_last (fun d => d.date == today) h.daily
      (summaryReset c
        { date := today, fastest := c.fastest.price,
          cheapest := c.cheapest.price,
          bestOneStop := c.bestOneStop.map (fun b => b.price) })
      hfind (by simp [summaryReset])
    rw [this]
    rfl
  | some e0 =>
    have hdate : (e0.date == today) = true := by
      have := List.find?_some hfind
      simpa using this
    simp only [runEngine, hfind, Option.isSome_some, setToday, if_true,
      ite_true]
    have := find?_replaceFirst (fun d => d.date == today) h.daily e0
      (summaryReset c e0) hfind (by simp [summaryReset]; simpa using hdate)
    rw [this]
    have : e0.date = today := by simpa using hdate
    simp [summaryReset, this]

/-- C8: on a missing storage file, and equally on a corrupt one whose
read or parse throws, `loadPriceHistory` swallows the problem and returns
the fresh empty history. -/
theorem load_missing_or_corrupt_returns_fresh :
    loadPriceHistory StorageState.missing =
      { daily := [], lastCheck := none } ∧
    loadPriceHistory StorageState.corrupt =
      { daily := [], lastCheck := none } :=
  ⟨rfl, rfl⟩

/-- C10: on the first run of a new date in routine-check mode, today's
entry is created from the current prices, no alert is emitted (for a
positive threshold), and afterwards every category's baseline equals the
current run's price. -/
theorem fresh_day_routine_no_alerts (cfg : FlightConfig) (c : Categories)
    (h : PriceHistory) (today now : String)
    (hthr : 0 < cfg.priceDropThreshold)
    (hfresh : h.daily.find? (fun d => d.date == today) = none) :
    (runEngine cfg false c h today now).1 = [] ∧
    (runEngine cfg false c h today now).2.daily.find?
        (fun d => d.date == today) =
      some { date := today, fastest := c.fastest.price,
             cheapest := c.cheapest.price,
             bestOneStop := c.bestOneStop.map (fun b => b.price) } := by
  have hcheck : routineCheck cfg.priceDropThreshold c
      { date := today, fastest := c.fastest.price,
        cheapest := c.cheapest.price,
        bestOneStop := c.bestOneStop.map (fun b => b.price) } =
      ([], { date := today, fastest := c.fastest.price,
             cheapest := c.cheapest.price,
             bestOneStop := c.bestOneStop.map (fun b => b.price) }) := by
    have h1 : ¬ c.fastest.price ≤ c.fastest.price - cfg.priceDropThreshold :=
      by omega
    have h2 : ¬ c.cheapest.price ≤ c.cheapest.price - cfg.priceDropThreshold :=
      by omega
    cases hb : c.bestOneStop with
    | none => simp [routineCheck, h1, h2, hb]
    | some b =>
      have h3 : ¬ (¬ b.price = 0 ∧
          b.price ≤ b.price - cfg.priceDropThreshold) := by omega
      simp only [routineCheck, hb]
      simp [h1, h2, h3]
      omega
  constructor
  · simp [runEngine, hfresh, hcheck]
  · simp only [runEngine, hfresh, Option.isSome_none, setToday, hcheck,
      Bool.false_eq_true, if_false, ite_false]
    exact find?_append_last _ _ _ hfresh (by simp)

/-- An empty starting history for the C10 witness. -/
def emptyHistory : PriceHistory where
  daily := []
  lastCheck := none

/-- Concrete date and timestamp strings for witnesses. -/
def witnessDate : String := "2024-10-03"

/-- Concrete `lastCheck` timestamp string for witnesses. -/
def witnessNow : String := "2024-10-03T08:00:00Z"

/-- Witness for C10: first run of a new date with `sampleCats`. -/
theorem fresh_day_routine_no_alerts_witness :
    (runEngine FLIGHT_CONFIG false sampleCats emptyHistory
        witnessDate witnessNow).1 = [] ∧
    (runEngine FLIGHT_CONFIG false sampleCats emptyHistory
        witnessDate witnessNow).2.daily.find?
        (fun d => d.date == witnessDate) =
      some { date := witnessDate, fastest := sampleCats.fastest.price,
             cheapest := sampleCats.cheapest.price,
             bestOneStop := sampleCats.bestOneStop.map (fun b => b.price) } :=
  fresh_day_routine_no_alerts FLIGHT_CONFIG sampleCats emptyHistory
    witnessDate witnessNow (by decide) (by rfl)

/-- Inversion of a successful, kept parse: the record had a price object,
both legs were extractable, the airline was not excluded, both time
windows and the stop limits were satisfied, both durations parsed, and
the flight is exactly the normalized object built from those parts. -/
theorem parseOffer_ok_some (cfg : FlightConfig) (r : RawOffer) (f : Flight)
    (h : parseOffer cfg r = Except.ok (some f)) :
    ∃ p ob rt obHM rtHM,
      r.price = some p ∧
      getLegRaw r.itineraries 0 = Except.ok ob ∧
      cfg.excludedAirlines.contains ob.first.carrierCode = false ∧
      getLegRaw r.itineraries 1 = Except.ok rt ∧
      jsLt ob.first.departureAt.hour 18 = false ∧
      (jsLt rt.first.departureAt.hour 12 ||
        jsGe rt.first.departureAt.hour 17) = false ∧
      (decide (ob.stops > cfg.maxStops) ||
        decide (rt.stops > cfg.maxStops)) = false ∧
      parseHM ob.duration = Except.ok obHM ∧
      parseHM rt.duration = Except.ok rtHM ∧
      f = mkFlight cfg r p ob rt obHM rtHM := by
  rcases hp : r.price with _ | p
  · simp [parseOffer, hp] at h
  · simp only [parseOffer, hp] at h
    rcases hob : getLegRaw r.itineraries 0 with e | ob
    · simp [hob] at h
    · simp only [hob] at h
      by_cases hc : cfg.excludedAirlines.contains ob.first.carrierCode = true
      · rw [if_pos hc] at h
        simp at h
      · rw [if_neg hc] at h
        rcases hrt : getLegRaw r.itineraries 1 with e | rt
        · simp [hrt] at h
        · simp only [hrt] at h
          by_cases h18 : jsLt ob.first.departureAt.hour 18 = true
          · rw [if_pos h18] at h
            simp at h
          · rw [if_neg h18] at h
            by_cases hret : (jsLt rt.first.departureAt.hour 12 ||
                jsGe rt.first.departureAt.hour 17) = true
            · rw [if_pos hret] at h
              simp at h
            · rw [if_neg hret] at h
              by_cases hst : (decide (ob.stops > cfg.maxStops) ||
                  decide (rt.stops > cfg.maxStops)) = true
              · rw [if_pos hst] at h
                simp at h
              · rw [if_neg hst] at h
                rcases hhm1 : parseHM ob.duration with e | obHM
                · simp [hhm1] at h
                · simp only [hhm1] at h
                  rcases hhm2 : parseHM rt.duration with e | rtHM
                  · simp [hhm2] at h
                  · simp only [hhm2] at h
                    refine ⟨p, ob, rt, obHM, rtHM, rfl, rfl, ?_, rfl, ?_, ?_,
                      ?_, hhm1, hhm2, ?_⟩
                    · simpa using hc
                    · simpa using h18
                    · simpa using hret
                    · simpa using hst
                    · have := Except.ok.inj h
                      exact (Option.some.inj this).symm

/-- Every element of a successful `mapME` run comes from some input
record on which the callback succeeded with that value. -/
theorem mapME_ok_mem (g : RawOffer → Except Unit (Option Flight))
    (offers : List RawOffer) (out : List (Option Flight))
    (h : mapME g offers = Except.ok out) :
    ∀ y ∈ out, ∃ r ∈ offers, g r = Except.ok y := by
  induction offers generalizing out with
  | nil =>
    simp only [mapME] at h
    obtain rfl := Except.ok.inj h
    intro y hy
    exact absurd hy (by simp)
  | cons x xs ih =>
    simp only [mapME] at h
    rcases hgx : g x with e | y0
    · simp [hgx] at h
    · simp only [hgx] at h
      rcases hrest : mapME g xs with e | ys
      · simp [hrest] at h
      · simp only [hrest] at h
        obtain rfl := Except.ok.inj h
        intro y hy
        rcases List.mem_cons.mp hy with rfl | hy'
        · exact ⟨x, List.mem_cons_self x xs, hgx⟩
        · obtain ⟨r, hr, hgr⟩ := ih ys hrest y hy'
          exact ⟨r, List.mem_cons_of_mem x hr, hgr⟩

theorem mapME_append_error (g : RawOffer → Except Unit (Option Flight))
    (pre : List RawOffer) (r : RawOffer) (rest : List RawOffer)
    (hok : ∀ x ∈ pre, ∃ y, g x = Except.ok y)
    (herr : g r = Except.error ()) :
    mapME g (pre ++ r :: rest) = Except.error () := by
  induction pre with
  | nil => simp [mapME, herr]
  | cons a as ih =>
    obtain ⟨y, hy⟩ := hok a (List.mem_cons_self a as)
    have := ih (fun x hx => hok x (List.mem_cons_of_mem a hx))
    simp [mapME, hy, this]

/-- C2 (amended): the adapter-filter never fabricates an offer — every
surfaced flight is the successful parse of some input record — and every
kept offer satisfies the airline-exclusion, outbound-hour, return-window
and stop-count rules.  No price rule exists in this variant. -/
theorem parse_subset_and_rules (cfg : FlightConfig) (d : RawData)
    (fs : List Flight) (h : parseAmadeusFlights cfg d = Except.ok fs) :
    ∀ f ∈ fs, ∃ offers r, d.data = some offers ∧ r ∈ offers ∧
      parseOffer cfg r = Except.ok (some f) ∧
      cfg.excludedAirlines.contains f.airlineCode = false ∧
      f.outbound.stops ≤ cfg.maxStops ∧ f.ret.stops ≤ cfg.maxStops ∧
      ∃ ob rt, getLegRaw r.itineraries 0 = Except.ok ob ∧
        getLegRaw r.itineraries 1 = Except.ok rt ∧
        f.airlineCode = ob.first.carrierCode ∧
        jsLt ob.first.departureAt.hour 18 = false ∧
        (jsLt rt.first.departureAt.hour 12 ||
          jsGe rt.first.departureAt.hour 17) = false := by
  intro f hf
  rcases hd : d.data with _ | offers
  · simp only [parseAmadeusFlights, hd] at h
    obtain rfl := Except.ok.inj h
    exact absurd hf (by simp)
  · simp only [parseAmadeusFlights, hd] at h
    rcases hm : mapME (parseOffer cfg) offers with e | parsed
    · simp [hm] at h
    · simp only [hm] at h
      obtain rfl := Except.ok.inj h
      have hsf : some f ∈ parsed := by
        obtain ⟨y, hy, hid⟩ := List.mem_filterMap.mp hf
        cases hid
        exact hy
      obtain ⟨r, hr, hpr⟩ := mapME_ok_mem (parseOffer cfg) offers parsed hm
        (some f) hsf
      obtain ⟨p, ob, rt, obHM, rtHM, hp, hob, hc, hrt, h18, hret, hst,
        hhm1, hhm2, hfm⟩ := parseOffer_ok_some cfg r f hpr
      subst hfm
      have hstops : ¬ ob.stops > cfg.maxStops ∧ ¬ rt.stops > cfg.maxStops := by
        simpa using hst
      refine ⟨offers, r, rfl, hr, hpr, ?_, ?_, ?_,
        ⟨ob, rt, hob, hrt, rfl, h18, hret⟩⟩
      · exact hc
      · show ob.stops ≤ cfg.maxStops
        omega
      · show rt.stops ≤ cfg.maxStops
        omega

/-- A well-formed outbound itinerary: one non-stop segment, departure at
19:00 (after the 18:00 gate), 2h30m duration. -/
def wItinOut : RawItinerary where
  duration := some "PT2H30M"
  segments :=
    [{ carrierCode := "6E"
       departureAt := { display := "2024-11-14T19:00", hour := some 19 }
       arrivalAt := { display := "2024-11-14T21:30", hour := some 21 } }]

/-- A well-formed return itinerary: one non-stop segment, departure at
13:00 (inside the 12:00-17:00 window), 2h30m duration. -/
def wItinRet : RawItinerary where
  duration := some "PT2H30M"
  segments :=
    [{ carrierCode := "6E"
       departureAt := { display := "2024-11-18T13:00", hour := some 13 }
       arrivalAt := { display := "2024-11-18T15:30", hour := some 15 } }]

/-- A raw offer that passes every check of the adapter, with the given
parsed price total. -/
def rawOfferAt (total : ℚ) : RawOffer where
  id := "w1"
  itineraries := [wItinOut, wItinRet]
  price := some { total := total }

/-- The normalized flight the adapter produces for `rawOfferAt total`. -/
def flightAt (total : ℚ) : Flight where
  id := "w1"
  airline := "IndiGo"
  airlineCode := "6E"
  price := jsRound total
  refundablePrice := jsRound (total * (1 + 3/20))
  outbound :=
    { departure := "2024-11-14T19:00", arrival := "2024-11-14T21:30"
      duration := "2h 30m", stops := 0 }
  ret :=
    { departure := "2024-11-18T13:00", arrival := "2024-11-18T15:30"
      duration := "2h 30m", stops := 0 }
  totalDuration := 300

/-- C2 counterexample: the adapter applies no price rule at all, so an
offer whose raw total is 0 passes every implemented check and is surfaced
with `price = 0`, violating `price > 0 ∧ price ≤ maxBudget` (no budget
field even exists in this variant's config). -/
theorem zero_price_surfaced_counterexample :
    parseAmadeusFlights FLIGHT_CONFIG { data := some [rawOfferAt 0] } =
      Except.ok [flightAt 0] ∧
    (flightAt 0).price = 0 :=
  ⟨rfl, by norm_num [flightAt, jsRound]⟩

/-- Witness for C2 (amended) at a concrete well-formed payload,
instantiated at the single surfaced flight. -/
theorem parse_subset_and_rules_witness :
    ∃ offers r,
      (RawData.mk (some [rawOfferAt 5000])).data = some offers ∧
      r ∈ offers ∧
      parseOffer FLIGHT_CONFIG r = Except.ok (some (flightAt 5000)) ∧
      FLIGHT_CONFIG.excludedAirlines.contains
        (flightAt 5000).airlineCode = false ∧
      (flightAt 5000).outbound.stops ≤ FLIGHT_CONFIG.maxStops ∧
      (flightAt 5000).ret.stops ≤ FLIGHT_CONFIG.maxStops ∧
      ∃ ob rt, getLegRaw r.itineraries 0 = Except.ok ob ∧
        getLegRaw r.itineraries 1 = Except.ok rt ∧
        (flightAt 5000).airlineCode = ob.first.carrierCode ∧
        jsLt ob.first.departureAt.hour 18 = false ∧
        (jsLt rt.first.departureAt.hour 12 ||
          jsGe rt.first.departureAt.hour 17) = false :=
  parse_subset_and_rules FLIGHT_CONFIG { data := some [rawOfferAt 5000] }
    [flightAt 5000] (by rfl) (flightAt 5000) (by simp)

/-- A raw record with missing nested fields: no `price` object, no
itineraries at all. -/
def brokenOffer : RawOffer where
  id := "broken"
  itineraries := []
  price := none

/-- C7 counterexample: one malformed record makes the whole adapter
throw (`Except.error`), so the well-formed record beside it is not
produced — even though that record parses fine on its own. -/
theorem adapter_throws_counterexample :
    parseAmadeusFlights FLIGHT_CONFIG
      { data := some [brokenOffer, rawOfferAt 5000] } = Except.error () ∧
    parseAmadeusFlights FLIGHT_CONFIG { data := some [rawOfferAt 5000] } =
      Except.ok [flightAt 5000] :=
  ⟨rfl, rfl⟩

/-- C7 (amended): the adapter returns an empty sequence when the
top-level `data` container is absent; but it is not exception-safe per
record — as soon as one record's parse throws, the entire adapter
throws, dropping every record (the records before the bad one included)
instead of dropping only the failing record. -/
theorem adapter_empty_on_missing_container_but_record_failure_aborts
    (cfg : FlightConfig) (pre : List RawOffer) (r : RawOffer)
    (rest : List RawOffer)
    (hok : ∀ x ∈ pre, ∃ y, parseOffer cfg x = Except.ok y)
    (herr : parseOffer cfg r = Except.error ()) :
    parseAmadeusFlights cfg { data := none } = Except.ok [] ∧
    parseAmadeusFlights cfg { data := some (pre ++ r :: rest) } =
      Except.error () := by
  refine ⟨rfl, ?_⟩
  have := mapME_append_error (parseOffer cfg) pre r rest hok herr
  simp [parseAmadeusFlights, this]

/-- Witness for C7 (amended): a good record followed by the broken one —
the good record is parsed and then lost when the broken one throws. -/
theorem adapter_record_failure_aborts_witness :
    parseAmadeusFlights FLIGHT_CONFIG { data := none } = Except.ok [] ∧
    parseAmadeusFlights FLIGHT_CONFIG
      { data := some ([rawOfferAt 5000] ++ brokenOffer :: []) } =
      Except.error () :=
  adapter_empty_on_missing_container_but_record_failure_aborts
    FLIGHT_CONFIG [rawOfferAt 5000] brokenOffer []
    (fun x hx => by
      rcases List.mem_singleton.mp hx with rfl
      exact ⟨some (flightAt 5000), rfl⟩)
    (by rfl)

/-- C9 (amended): `refundablePrice` is the rounding of the *raw* parsed
price times `(1 + markup)` — computed from the un-rounded float, not from
the already-rounded integer `price` field.  The two agree whenever the
raw total is an integer, but can differ by one otherwise. -/
theorem refundable_from_raw_price (cfg : FlightConfig) (r : RawOffer)
    (f : Flight) (p : RawPrice)
    (h : parseOffer cfg r = Except.ok (some f)) (hp : r.price = some p) :
    f.price = jsRound p.total ∧
    f.refundablePrice = jsRound (p.total * (1 + cfg.refundableMarkup)) := by
  obtain ⟨p', ob, rt, obHM, rtHM, hp', hob, hc, hrt, h18, hret, hst,
    hhm1, hhm2, hfm⟩ := parseOffer_ok_some cfg r f h
  rw [hp] at hp'
  obtain rfl := Option.some.inj hp'
  subst hfm
  exact ⟨rfl, rfl⟩

/-- Witness for C9 (amended) at the concrete raw total 5000. -/
theorem refundable_from_raw_price_witness :
    (flightAt 5000).price = jsRound (RawPrice.mk 5000).total ∧
    (flightAt 5000).refundablePrice =
      jsRound ((RawPrice.mk 5000).total *
        (1 + FLIGHT_CONFIG.refundableMarkup)) :=
  refundable_from_raw_price FLIGHT_CONFIG (rawOfferAt 5000) (flightAt 5000)
    (RawPrice.mk 5000) (by rfl) (by rfl)

/-- C9 counterexample: at raw total 104.5 the surfaced offer has
`price = 105` and `refundablePrice = 120`, while rounding the rounded
price times `1.15` would give 121 — so `refundablePrice` is *not*
`round(price × (1 + markup))` for the integer `price` field. -/
theorem refundable_not_from_rounded_price_counterexample :
    parseAmadeusFlights FLIGHT_CONFIG { data := some [rawOfferAt (209/2)] } =
      Except.ok [flightAt (209/2)] ∧
    (flightAt (209/2)).price = 105 ∧
    (flightAt (209/2)).refundablePrice = 120 ∧
    jsRound ((105 : ℚ) * (1 + FLIGHT_CONFIG.refundableMarkup)) = 121 := by
  refine ⟨rfl, ?_, ?_, ?_⟩
  · norm_num [flightAt, jsRound]
  · norm_num [flightAt, jsRound]
  · norm_num [jsRound, FLIGHT_CONFIG]

end FlightTracker
